import Mathlib

/-!
Verification of the everest-framework Rust bridge (`everestrs/src/lib.rs`)
against its natural-language specification.

The development shallowly embeds the bridge:

* the payload codec (the bridge serializes and deserializes with the external
  `serde_json` crate; modelled from the spec, section 4.1, as a JSON value
  type with a renderer and a parser; numbers are restricted to integers);
* the manifest schema (the `schema` module of the crate is not part of the
  provided sources; `Manifest` and `Interface` are modelled from the spec,
  section 3);
* the external handle (`everestrs_sys` C++ `Module`; modelled from the spec,
  sections 4.3 and 6, as a record of already-decoded query results, with the
  calls the bridge issues against it recorded as an explicit event trace);
* the `Runtime` itself with its dispatch entry points, translated directly
  from the Rust source.  A Rust panic (an `unwrap` of `Err`/`None`) is
  modelled as the value `none`; a `&self` method returns the receiver
  unchanged, which the embedding makes explicit by returning the state.
-/

namespace Everest

/-! ## Payload codec (modelled from the spec, section 4.1)

Modelled from the spec: the bridge's payload codec is the external
`serde_json` crate (not part of this repository's sources).  `Json` models
`serde_json::Value` with numbers restricted to integers; `render` models
`serde_json::to_vec` (total serialization); `parseVal`/`jsonDecode` model
`serde_json::from_slice` (deserialization that fails on malformed input). -/

/-- JSON values: the payload data model.  Numbers are modelled as integers. -/
inductive Json where
  | null
  | bool (b : Bool)
  | num (n : Int)
  | str (s : String)
  | arr (elems : List Json)
  | obj (members : List (String × Json))

/-- Hexadecimal digit character for a value below 16. -/
def hexDigitChar (n : Nat) : Char :=
  if n < 10 then Char.ofNat (48 + n) else Char.ofNat (87 + n)

/-- Decimal digit character for a value below 10. -/
def digitChar (d : Nat) : Char := Char.ofNat (48 + d)

/-- Four-digit unicode escape sequence of a control character code. -/
def controlEscape (t : Nat) : List Char :=
  '\\' :: 'u' :: '0' :: '0' :: hexDigitChar (t / 16) :: hexDigitChar (t % 16) :: []

/-- JSON string escaping of one character: quote and backslash get a
backslash escape, control characters a four-digit unicode escape. -/
def escapeChar (c : Char) : List Char :=
  if c = '"' ∨ c = '\\' then ['\\', c]
  else if c.toNat < 32 then controlEscape c.toNat
  else [c]

/-- JSON string escaping of a character sequence. -/
def escapeChars : List Char → List Char
  | [] => []
  | c :: cs => escapeChar c ++ escapeChars cs

/-- Decimal digits of `n`, most significant first; `[]` for `0`.
The first argument is recursion fuel. -/
def renderNatAux : Nat → Nat → List Char
  | 0, _ => []
  | fuel + 1, n => if n = 0 then [] else renderNatAux fuel (n / 10) ++ [digitChar (n % 10)]

/-- Decimal rendering of a natural number. -/
def renderNat (n : Nat) : List Char :=
  if n = 0 then ['0'] else renderNatAux n n

/-- Decimal rendering of an integer. -/
def renderInt (n : Int) : List Char :=
  if n < 0 then '-' :: renderNat n.natAbs else renderNat n.toNat

mutual

/-- Serialization of a JSON value to characters (the byte level of
`serde_json::to_vec`); total, as the spec requires of `encode`. -/
def render : Json → List Char
  | .null => "null".data
  | .bool true => "true".data
  | .bool false => "false".data
  | .num n => renderInt n
  | .str s => '"' :: (escapeChars s.data ++ ['"'])
  | .arr [] => ['[', ']']
  | .arr (x :: xs) => '[' :: (render x ++ renderMoreElems xs)
  | .obj [] => ['{', '}']
  | .obj (m :: ms) => '{' :: (renderMember m ++ renderMoreMembers ms)

/-- Serialization of one object member, `"key":value`. -/
def renderMember : String × Json → List Char
  | (k, v) => '"' :: (escapeChars k.data ++ '"' :: ':' :: render v)

/-- Serialization of the remaining array elements, ending with the bracket. -/
def renderMoreElems : List Json → List Char
  | [] => [']']
  | x :: xs => ',' :: (render x ++ renderMoreElems xs)

/-- Serialization of the remaining object members, ending with the brace. -/
def renderMoreMembers : List (String × Json) → List Char
  | [] => ['}']
  | m :: ms => ',' :: (renderMember m ++ renderMoreMembers ms)

end

mutual

/-- Structural size of a JSON value, used as parser fuel accounting. -/
def sizeJ : Json → Nat
  | .arr xs => 1 + sizeElems xs
  | .obj ms => 1 + sizeMembers ms
  | _ => 1

/-- Structural size of a list of JSON values. -/
def sizeElems : List Json → Nat
  | [] => 0
  | x :: xs => 1 + sizeJ x + sizeElems xs

/-- Structural size of a list of JSON object members. -/
def sizeMembers : List (String × Json) → Nat
  | [] => 0
  | m :: ms => 1 + sizeJ m.2 + sizeMembers ms

end

/-- Numeric value of a hexadecimal digit character. -/
def hexDigitVal (c : Char) : Option Nat :=
  if 48 ≤ c.toNat ∧ c.toNat ≤ 57 then some (c.toNat - 48)
  else if 97 ≤ c.toNat ∧ c.toNat ≤ 102 then some (c.toNat - 87)
  else none

/-- Unescaping of a one-character escape sequence. -/
def unescapeChar (c : Char) : Option Char :=
  if c = '"' then some '"' else if c = '\\' then some '\\' else none

/-- Parser for the body of a JSON string, after the opening quote; returns
the unescaped characters and the input remaining after the closing quote. -/
def parseStringBody : List Char → Option (List Char × List Char)
  | [] => none
  | c :: cs =>
    if c = '"' then some ([], cs)
    else if c = '\\' then
      match cs with
      | [] => none
      | e :: cs2 =>
        if e = 'u' then
          match cs2 with
          | h1 :: h2 :: h3 :: h4 :: cs3 =>
            match hexDigitVal h1, hexDigitVal h2, hexDigitVal h3, hexDigitVal h4 with
            | some a, some b, some c3, some d =>
              (parseStringBody cs3).map fun p =>
                (Char.ofNat (((a * 16 + b) * 16 + c3) * 16 + d) :: p.1, p.2)
            | _, _, _, _ => none
          | _ => none
        else
          match unescapeChar e with
          | some uc => (parseStringBody cs2).map fun p => (uc :: p.1, p.2)
          | none => none
    else (parseStringBody cs).map fun p => (c :: p.1, p.2)

/-- Numeric value of a sequence of decimal digit characters. -/
def digitsVal (ds : List Char) : Nat :=
  ds.foldl (fun a c => 10 * a + (c.toNat - 48)) 0

/-- Matcher for an expected literal character sequence. -/
def expectChars : List Char → List Char → Option (List Char)
  | [], rest => some rest
  | e :: es, c :: cs => if c = e then expectChars es cs else none
  | _ :: _, [] => none

mutual

/-- Fuel-indexed parser for one JSON value; returns the value and the
remaining input. -/
def parseVal : Nat → List Char → Option (Json × List Char)
  | 0, _ => none
  | _ + 1, [] => none
  | fuel + 1, c :: cs =>
    if c = 'n' then (expectChars ['u', 'l', 'l'] cs).map fun r => (.null, r)
    else if c = 't' then (expectChars ['r', 'u', 'e'] cs).map fun r => (.bool true, r)
    else if c = 'f' then (expectChars ['a', 'l', 's', 'e'] cs).map fun r => (.bool false, r)
    else if c = '"' then (parseStringBody cs).map fun p => (.str (String.mk p.1), p.2)
    else if c = '[' then
      if cs.head? = some ']' then some (.arr [], cs.tail)
      else (parseElems fuel cs).map fun p => (.arr p.1, p.2)
    else if c = '{' then
      if cs.head? = some '}' then some (.obj [], cs.tail)
      else (parseMembers fuel cs).map fun p => (.obj p.1, p.2)
    else if c = '-' then
      if (cs.takeWhile Char.isDigit).isEmpty then none
      else some (.num (-(digitsVal (cs.takeWhile Char.isDigit) : Int)),
        cs.dropWhile Char.isDigit)
    else if c.isDigit then
      some (.num (digitsVal ((c :: cs).takeWhile Char.isDigit)),
            (c :: cs).dropWhile Char.isDigit)
    else none

/-- Fuel-indexed parser for the elements of a nonempty JSON array, after the
opening bracket; consumes the closing bracket. -/
def parseElems : Nat → List Char → Option (List Json × List Char)
  | 0, _ => none
  | fuel + 1, cs =>
    (parseVal fuel cs).bind fun p =>
      if p.2.head? = some ',' then
        (parseElems fuel p.2.tail).map fun q => (p.1 :: q.1, q.2)
      else if p.2.head? = some ']' then some ([p.1], p.2.tail)
      else none

/-- Fuel-indexed parser for the members of a nonempty JSON object, after the
opening brace; consumes the closing brace. -/
def parseMembers : Nat → List Char → Option (List (String × Json) × List Char)
  | 0, _ => none
  | fuel + 1, cs =>
    match cs with
    | '"' :: cs1 =>
      (parseStringBody cs1).bind fun kp =>
        if kp.2.head? = some ':' then
          (parseVal fuel kp.2.tail).bind fun vp =>
            if vp.2.head? = some ',' then
              (parseMembers fuel vp.2.tail).map fun q => ((String.mk kp.1, vp.1) :: q.1, q.2)
            else if vp.2.head? = some '}' then some ([(String.mk kp.1, vp.1)], vp.2.tail)
            else none
        else none
    | _ => none

end

/-- Deserialization of a character sequence to a JSON value (the model of
`serde_json::from_slice`): the whole input must parse as one value;
malformed input yields `none`. -/
def jsonDecode (cs : List Char) : Option Json :=
  match parseVal (cs.length + 1) cs with
  | some (v, []) => some v
  | _ => none

/-! ## Codec round-trip: supporting lemmas -/

theorem char_toNat_ofNat {n : Nat} (h : n < 55296) : (Char.ofNat n).toNat = n := by
  have hv : n.isValidChar := Or.inl h
  simp [Char.ofNat, hv, Char.ofNatAux, Char.toNat, UInt32.toNat, BitVec.toNat_ofNatLt]

theorem char_ofNat_toNat (c : Char) : Char.ofNat c.toNat = c := by
  have hv : c.toNat.isValidChar := c.valid
  apply Char.eq_of_val_eq
  simp [Char.ofNat, hv, Char.ofNatAux]
  apply UInt32.eq_of_toBitVec_eq
  apply BitVec.eq_of_toNat_eq
  simp [Char.toNat, UInt32.toNat, BitVec.toNat_ofNatLt]

theorem digitChar_isDigit : ∀ d, d < 10 → (digitChar d).isDigit = true := by decide

theorem digitChar_toNat (d : Nat) (h : d < 10) : (digitChar d).toNat = 48 + d :=
  char_toNat_ofNat (by omega)

theorem hexDigitVal_hexDigitChar : ∀ d, d < 16 → hexDigitVal (hexDigitChar d) = some d := by
  decide

theorem isDigit_ne {c k : Char} (hc : c.isDigit = true) (hk : k.isDigit = false) : c ≠ k := by
  intro h
  rw [h, hk] at hc
  exact Bool.noConfusion hc

/-- Heads of input the number parser must not run into. -/
def notDigitStart (cs : List Char) : Prop :=
  ∀ c, cs.head? = some c → c.isDigit = false

theorem notDigitStart_nil : notDigitStart [] := by
  intro c h
  exact Option.noConfusion h

theorem notDigitStart_cons {c : Char} (h : c.isDigit = false) (cs : List Char) :
    notDigitStart (c :: cs) := by
  intro d hd
  cases hd
  exact h

theorem takeWhile_dropWhile_append (p : Char → Bool) :
    ∀ l r : List Char, (∀ c ∈ l, p c = true) → (∀ c, r.head? = some c → p c = false) →
      (l ++ r).takeWhile p = l ∧ (l ++ r).dropWhile p = r := by
  intro l
  induction l with
  | nil =>
    intro r _ hr
    cases r with
    | nil => exact ⟨rfl, rfl⟩
    | cons c cs =>
      have hc : p c = false := hr c rfl
      simp [List.takeWhile_cons, List.dropWhile_cons, hc]
  | cons c l ih =>
    intro r hl hr
    have hc : p c = true := hl c (List.mem_cons_self c l)
    have := ih r (fun d hd => hl d (List.mem_cons_of_mem c hd)) hr
    simp [List.takeWhile_cons, List.dropWhile_cons, hc, this.1, this.2]

theorem digitsVal_append_singleton (l : List Char) (c : Char) :
    digitsVal (l ++ [c]) = 10 * digitsVal l + (c.toNat - 48) := by
  simp [digitsVal, List.foldl_append]

theorem digitsVal_renderNatAux : ∀ fuel n, n ≤ fuel → digitsVal (renderNatAux fuel n) = n := by
  intro fuel
  induction fuel with
  | zero =>
    intro n hn
    have : n = 0 := by omega
    simp [this, renderNatAux, digitsVal]
  | succ f ih =>
    intro n hn
    by_cases h0 : n = 0
    · simp [h0, renderNatAux, digitsVal]
    · rw [renderNatAux, if_neg h0, digitsVal_append_singleton,
        ih (n / 10) (by omega), digitChar_toNat (n % 10) (by omega)]
      omega

theorem renderNatAux_digits : ∀ fuel n c, c ∈ renderNatAux fuel n → c.isDigit = true := by
  intro fuel
  induction fuel with
  | zero =>
    intro n c hc
    simp [renderNatAux] at hc
  | succ f ih =>
    intro n c hc
    by_cases h0 : n = 0
    · simp [renderNatAux, h0] at hc
    · rw [renderNatAux, if_neg h0] at hc
      rcases List.mem_append.mp hc with h | h
      · exact ih (n / 10) c h
      · rw [List.mem_singleton.mp h]
        exact digitChar_isDigit (n % 10) (by omega)

theorem renderNat_digits (n : Nat) : ∀ c ∈ renderNat n, c.isDigit = true := by
  intro c hc
  by_cases h0 : n = 0
  · simp [renderNat, h0] at hc
    rw [hc]; decide
  · rw [renderNat, if_neg h0] at hc
    exact renderNatAux_digits n n c hc

theorem renderNat_ne_nil (n : Nat) : renderNat n ≠ [] := by
  by_cases h0 : n = 0
  · simp [renderNat, h0]
  · rw [renderNat, if_neg h0]
    cases n with
    | zero => exact absurd rfl h0
    | succ m =>
      rw [renderNatAux, if_neg h0]
      simp

theorem digitsVal_renderNat (n : Nat) : digitsVal (renderNat n) = n := by
  by_cases h0 : n = 0
  · simp [renderNat, h0, digitsVal]
  · rw [renderNat, if_neg h0]
    exact digitsVal_renderNatAux n n le_rfl

theorem parseStringBody_plain (c : Char) (h1 : c ≠ '"') (h2 : c ≠ '\\') (X : List Char) :
    parseStringBody (c :: X) = (parseStringBody X).map fun p => (c :: p.1, p.2) := by
  rw [parseStringBody.eq_def]
  simp [h1, h2]

theorem parseStringBody_esc_simple (e uc : Char) (he : e ≠ 'u') (hu : unescapeChar e = some uc)
    (X : List Char) :
    parseStringBody ('\\' :: e :: X) = (parseStringBody X).map fun p => (uc :: p.1, p.2) := by
  rw [parseStringBody.eq_def]
  simp [he, hu]

theorem parseStringBody_esc_control (t : Nat) (ht : t < 32) (X : List Char) :
    parseStringBody (controlEscape t ++ X)
      = (parseStringBody X).map fun p => (Char.ofNat t :: p.1, p.2) := by
  have e3 : hexDigitVal (hexDigitChar (t / 16)) = some (t / 16) :=
    hexDigitVal_hexDigitChar _ (by omega)
  have e4 : hexDigitVal (hexDigitChar (t % 16)) = some (t % 16) :=
    hexDigitVal_hexDigitChar _ (by omega)
  rw [controlEscape]
  simp only [List.cons_append, List.nil_append]
  rw [parseStringBody.eq_def]
  simp [e3, e4, show hexDigitVal '0' = some 0 from rfl]
  rw [show t / 16 * 16 + t % 16 = t by omega]

theorem escapeChars_parse :
    ∀ cs rest, parseStringBody (escapeChars cs ++ '"' :: rest) = some (cs, rest) := by
  intro cs
  induction cs with
  | nil =>
    intro rest
    rw [escapeChars, List.nil_append, parseStringBody.eq_def]
    simp
  | cons c cs ih =>
    intro rest
    rw [escapeChars, List.append_assoc]
    by_cases h1 : c = '"' ∨ c = '\\'
    · rw [escapeChar, if_pos h1]
      rcases h1 with h | h <;> subst h
      · simp only [List.cons_append, List.nil_append]
        rw [parseStringBody_esc_simple '"' '"' (by decide) rfl, ih rest]
        rfl
      · simp only [List.cons_append, List.nil_append]
        rw [parseStringBody_esc_simple '\\' '\\' (by decide) rfl, ih rest]
        rfl
    · by_cases h2 : c.toNat < 32
      · rw [escapeChar, if_neg h1, if_pos h2]
        rw [parseStringBody_esc_control c.toNat h2, ih rest, char_ofNat_toNat c]
        rfl
      · rw [escapeChar, if_neg h1, if_neg h2]
        push_neg at h1
        simp only [List.cons_append, List.nil_append]
        rw [parseStringBody_plain c h1.1 h1.2, ih rest]
        rfl

theorem sizeJ_pos (v : Json) : 1 ≤ sizeJ v := by
  cases v <;> simp [sizeJ]

theorem parseVal_digitHead (fuel : Nat) (c : Char) (cs : List Char) (hd : c.isDigit = true) :
    parseVal (fuel + 1) (c :: cs)
      = some (.num (digitsVal ((c :: cs).takeWhile Char.isDigit)),
          (c :: cs).dropWhile Char.isDigit) := by
  have h1 : c ≠ 'n' := isDigit_ne hd (by decide)
  have h2 : c ≠ 't' := isDigit_ne hd (by decide)
  have h3 : c ≠ 'f' := isDigit_ne hd (by decide)
  have h4 : c ≠ '"' := isDigit_ne hd (by decide)
  have h5 : c ≠ '[' := isDigit_ne hd (by decide)
  have h6 : c ≠ '{' := isDigit_ne hd (by decide)
  have h7 : c ≠ '-' := isDigit_ne hd (by decide)
  rw [parseVal.eq_def]
  simp [h1, h2, h3, h4, h5, h6, h7, hd]

theorem parseVal_digits (fuel : Nat) (l r : List Char) (hl : ∀ c ∈ l, c.isDigit = true)
    (hne : l ≠ []) (hr : ∀ c, r.head? = some c → c.isDigit = false) :
    parseVal (fuel + 1) (l ++ r) = some (.num (digitsVal l), r) := by
  obtain ⟨d, ds, rfl⟩ := List.exists_cons_of_ne_nil hne
  have hd : d.isDigit = true := hl d (List.mem_cons_self d ds)
  have hsplit := takeWhile_dropWhile_append Char.isDigit (d :: ds) r hl hr
  rw [List.cons_append, parseVal_digitHead fuel d (ds ++ r) hd, ← List.cons_append,
    hsplit.1, hsplit.2]

theorem parseVal_neg (fuel : Nat) (l r : List Char) (hl : ∀ c ∈ l, c.isDigit = true)
    (hne : l ≠ []) (hr : ∀ c, r.head? = some c → c.isDigit = false) :
    parseVal (fuel + 1) ('-' :: (l ++ r)) = some (.num (-(digitsVal l : Int)), r) := by
  obtain ⟨d, ds, rfl⟩ := List.exists_cons_of_ne_nil hne
  have hsplit := takeWhile_dropWhile_append Char.isDigit (d :: ds) r hl hr
  have step : parseVal (fuel + 1) ('-' :: ((d :: ds) ++ r)) =
      if (((d :: ds) ++ r).takeWhile Char.isDigit).isEmpty then none
      else some (.num (-(digitsVal (((d :: ds) ++ r).takeWhile Char.isDigit) : Int)),
        ((d :: ds) ++ r).dropWhile Char.isDigit) := rfl
  rw [step, hsplit.1, hsplit.2]
  simp [List.isEmpty]

theorem render_head (v : Json) : ∃ c tl, render v = c :: tl ∧ c ≠ ']' ∧ c ≠ '}' := by
  cases v with
  | null => exact ⟨'n', ['u', 'l', 'l'], by simp [render], by decide, by decide⟩
  | bool b =>
    cases b
    · exact ⟨'f', ['a', 'l', 's', 'e'], by simp [render], by decide, by decide⟩
    · exact ⟨'t', ['r', 'u', 'e'], by simp [render], by decide, by decide⟩
  | num n =>
    by_cases hneg : n < 0
    · exact ⟨'-', renderNat n.natAbs, by simp [render, renderInt, hneg], by decide, by decide⟩
    · obtain ⟨d, ds, hdds⟩ := List.exists_cons_of_ne_nil (renderNat_ne_nil n.toNat)
      have hd : d.isDigit = true := renderNat_digits n.toNat d (by rw [hdds]; exact List.mem_cons_self d ds)
      refine ⟨d, ds, ?_, isDigit_ne hd (by decide), isDigit_ne hd (by decide)⟩
      rw [show render (.num n) = renderInt n from by simp [render], renderInt, if_neg hneg, hdds]
  | str s => exact ⟨'"', escapeChars s.data ++ ['"'], by simp [render], by decide, by decide⟩
  | arr xs =>
    cases xs with
    | nil => exact ⟨'[', [']'], by simp [render], by decide, by decide⟩
    | cons x xs =>
      exact ⟨'[', render x ++ renderMoreElems xs, by simp [render], by decide, by decide⟩
  | obj ms =>
    cases ms with
    | nil => exact ⟨'{', ['}'], by simp [render], by decide, by decide⟩
    | cons m ms =>
      exact ⟨'{', renderMember m ++ renderMoreMembers ms, by simp [render], by decide, by decide⟩

theorem notDigitStart_renderMoreElems (xs : List Json) (rest : List Char) :
    notDigitStart (renderMoreElems xs ++ rest) := by
  cases xs with
  | nil =>
    rw [show renderMoreElems [] = [']'] from by simp [renderMoreElems], List.singleton_append]
    exact notDigitStart_cons (by decide) rest
  | cons x xs =>
    rw [show renderMoreElems (x :: xs) = ',' :: (render x ++ renderMoreElems xs) from by
      simp [renderMoreElems], List.cons_append]
    exact notDigitStart_cons (by decide) _

theorem notDigitStart_renderMoreMembers (ms : List (String × Json)) (rest : List Char) :
    notDigitStart (renderMoreMembers ms ++ rest) := by
  cases ms with
  | nil =>
    rw [show renderMoreMembers [] = ['}'] from by simp [renderMoreMembers], List.singleton_append]
    exact notDigitStart_cons (by decide) rest
  | cons m ms =>
    rw [show renderMoreMembers (m :: ms) = ',' :: (renderMember m ++ renderMoreMembers ms) from by
      simp [renderMoreMembers], List.cons_append]
    exact notDigitStart_cons (by decide) _

theorem parseElems_step (fuel : Nat) (W : List Char) :
    parseElems (fuel + 1) W =
      (parseVal fuel W).bind fun p =>
        if p.2.head? = some ',' then
          (parseElems fuel p.2.tail).map fun q => (p.1 :: q.1, q.2)
        else if p.2.head? = some ']' then some ([p.1], p.2.tail)
        else none := rfl

theorem parseMembers_step (fuel : Nat) (cs1 : List Char) :
    parseMembers (fuel + 1) ('"' :: cs1) =
      (parseStringBody cs1).bind fun kp =>
        if kp.2.head? = some ':' then
          (parseVal fuel kp.2.tail).bind fun vp =>
            if vp.2.head? = some ',' then
              (parseMembers fuel vp.2.tail).map fun q => ((String.mk kp.1, vp.1) :: q.1, q.2)
            else if vp.2.head? = some '}' then some ([(String.mk kp.1, vp.1)], vp.2.tail)
            else none
        else none := rfl

theorem parseVal_arrHead (fuel : Nat) (W : List Char) :
    parseVal (fuel + 1) ('[' :: W) =
      if W.head? = some ']' then some (.arr [], W.tail)
      else (parseElems fuel W).map fun p => (.arr p.1, p.2) := rfl

theorem parseVal_objHead (fuel : Nat) (W : List Char) :
    parseVal (fuel + 1) ('{' :: W) =
      if W.head? = some '}' then some (.obj [], W.tail)
      else (parseMembers fuel W).map fun p => (.obj p.1, p.2) := rfl

theorem parseVal_strHead (fuel : Nat) (W : List Char) :
    parseVal (fuel + 1) ('"' :: W) =
      (parseStringBody W).map fun p => (.str (String.mk p.1), p.2) := rfl

theorem parse_render_all : ∀ fuel,
    (∀ v rest, sizeJ v ≤ fuel → notDigitStart rest →
      parseVal fuel (render v ++ rest) = some (v, rest))
    ∧ (∀ x xs rest, sizeElems (x :: xs) ≤ fuel → notDigitStart rest →
      parseElems fuel (render x ++ (renderMoreElems xs ++ rest)) = some (x :: xs, rest))
    ∧ (∀ k v ms rest, sizeMembers ((k, v) :: ms) ≤ fuel → notDigitStart rest →
      parseMembers fuel (renderMember (k, v) ++ (renderMoreMembers ms ++ rest))
        = some ((k, v) :: ms, rest)) := by
  intro fuel
  induction fuel with
  | zero =>
    refine ⟨?_, ?_, ?_⟩
    · intro v rest hs _
      have := sizeJ_pos v
      omega
    · intro x xs rest hs _
      simp [sizeElems] at hs
    · intro k v ms rest hs _
      simp [sizeMembers] at hs
  | succ f ih =>
    obtain ⟨ihV, ihE, ihM⟩ := ih
    refine ⟨?_, ?_, ?_⟩
    · intro v rest hs hrest
      cases v with
      | null =>
        simp only [render]
        rfl
      | bool b =>
        cases b <;> (simp only [render]; rfl)
      | num n =>
        simp only [render]
        rw [renderInt]
        by_cases hneg : n < 0
        · rw [if_pos hneg, List.cons_append,
            parseVal_neg f (renderNat n.natAbs) rest (renderNat_digits _) (renderNat_ne_nil _)
              (fun c h => hrest c h),
            digitsVal_renderNat]
          have hn : -((n.natAbs : Nat) : Int) = n := by omega
          rw [hn]
        · rw [if_neg hneg,
            parseVal_digits f (renderNat n.toNat) rest (renderNat_digits _) (renderNat_ne_nil _)
              (fun c h => hrest c h),
            digitsVal_renderNat]
          have hn : ((n.toNat : Nat) : Int) = n := by omega
          rw [hn]
      | str s =>
        simp only [render, List.cons_append, List.append_assoc, List.nil_append,
          List.singleton_append]
        rw [parseVal_strHead, escapeChars_parse s.data rest]
        rfl
      | arr xs =>
        cases xs with
        | nil =>
          simp only [render]
          rfl
        | cons x xs =>
          simp only [render, List.cons_append, List.append_assoc]
          obtain ⟨c0, tl, hhead, hc1, _⟩ := render_head x
          have hsz : sizeElems (x :: xs) ≤ f := by
            simp [sizeJ, sizeElems] at hs
            simp [sizeElems]
            omega
          rw [parseVal_arrHead]
          rw [show (render x ++ (renderMoreElems xs ++ rest)).head? = some c0 from by
            rw [hhead]; rfl]
          rw [if_neg (fun h => hc1 (Option.some.inj h))]
          rw [ihE x xs rest hsz hrest]
          rfl
      | obj ms =>
        cases ms with
        | nil =>
          simp only [render]
          rfl
        | cons m ms =>
          obtain ⟨k, v⟩ := m
          simp only [render, List.cons_append, List.append_assoc]
          have hsz : sizeMembers ((k, v) :: ms) ≤ f := by
            simp [sizeJ, sizeMembers] at hs
            simp [sizeMembers]
            omega
          rw [parseVal_objHead]
          rw [show (renderMember (k, v) ++ (renderMoreMembers ms ++ rest)).head? = some '"' from by
            rw [show renderMember (k, v) = '"' :: (escapeChars k.data ++ '"' :: ':' :: render v)
              from by simp [renderMember]]; rfl]
          rw [if_neg (by decide)]
          rw [ihM k v ms rest hsz hrest]
          rfl
    · intro x xs rest hs hrest
      have hx : sizeJ x ≤ f := by
        simp [sizeElems] at hs
        omega
      have hnd : notDigitStart (renderMoreElems xs ++ rest) :=
        notDigitStart_renderMoreElems xs rest
      rw [parseElems_step, ihV x _ hx hnd, Option.some_bind]
      cases xs with
      | nil =>
        rw [show renderMoreElems [] = [']'] from by simp [renderMoreElems],
          List.singleton_append]
        simp
      | cons y ys =>
        have hys : sizeElems (y :: ys) ≤ f := by
          simp [sizeElems] at hs ⊢
          omega
        rw [show renderMoreElems (y :: ys) = ',' :: (render y ++ renderMoreElems ys) from by
          simp [renderMoreElems], List.cons_append, List.append_assoc]
        simp only [List.head?_cons, List.tail_cons, if_pos rfl]
        rw [ihE y ys rest hys hrest]
        rfl
    · intro k v ms rest hs hrest
      have hv : sizeJ v ≤ f := by
        simp [sizeMembers] at hs
        omega
      have hnd : notDigitStart (renderMoreMembers ms ++ rest) :=
        notDigitStart_renderMoreMembers ms rest
      rw [show renderMember (k, v) = '"' :: (escapeChars k.data ++ '"' :: ':' :: render v) from by
        simp [renderMember]]
      simp only [List.cons_append, List.append_assoc]
      rw [parseMembers_step, escapeChars_parse k.data
        (':' :: (render v ++ (renderMoreMembers ms ++ rest))), Option.some_bind]
      simp only [List.head?_cons, List.tail_cons, if_pos rfl]
      rw [ihV v _ hv hnd, Option.some_bind]
      cases ms with
      | nil =>
        rw [show renderMoreMembers ([] : List (String × Json)) = ['}'] from by
          simp [renderMoreMembers], List.singleton_append]
        simp
      | cons m ms =>
        have hms : sizeMembers (m :: ms) ≤ f := by
          simp [sizeMembers] at hs ⊢
          omega
        rw [show renderMoreMembers (m :: ms) = ',' :: (renderMember m ++ renderMoreMembers ms)
          from by simp [renderMoreMembers], List.cons_append, List.append_assoc]
        simp only [List.head?_cons, List.tail_cons, if_pos rfl]
        obtain ⟨k2, v2⟩ := m
        rw [ihM k2 v2 ms rest hms hrest]
        rfl

theorem size_render_all : ∀ N,
    (∀ v, sizeJ v ≤ N → sizeJ v ≤ (render v).length)
    ∧ (∀ xs, sizeElems xs ≤ N → sizeElems xs + 1 ≤ (renderMoreElems xs).length)
    ∧ (∀ ms, sizeMembers ms ≤ N → sizeMembers ms + 1 ≤ (renderMoreMembers ms).length) := by
  intro N
  induction N with
  | zero =>
    refine ⟨?_, ?_, ?_⟩
    · intro v hs
      have := sizeJ_pos v
      omega
    · intro xs hs
      cases xs with
      | nil => simp [sizeElems, renderMoreElems]
      | cons x xs => simp [sizeElems] at hs
    · intro ms hs
      cases ms with
      | nil => simp [sizeMembers, renderMoreMembers]
      | cons m ms => simp [sizeMembers] at hs
  | succ N ih =>
    obtain ⟨ihV, ihE, ihM⟩ := ih
    refine ⟨?_, ?_, ?_⟩
    · intro v hs
      cases v with
      | null => simp [sizeJ, render]
      | bool b => cases b <;> simp [sizeJ, render]
      | num n =>
        have h1 : 1 ≤ (renderInt n).length := by
          rw [renderInt]
          by_cases hneg : n < 0
          · simp [hneg]
          · rw [if_neg hneg]
            have := renderNat_ne_nil n.toNat
            cases hrn : renderNat n.toNat with
            | nil => exact absurd hrn this
            | cons d ds => simp
        simp [sizeJ, render]
        omega
      | str s => simp [sizeJ, render]
      | arr xs =>
        cases xs with
        | nil => simp [sizeJ, sizeElems, render]
        | cons x xs =>
          have hx : sizeJ x ≤ N := by
            simp [sizeJ, sizeElems] at hs
            omega
          have hxs : sizeElems xs ≤ N := by
            simp [sizeJ, sizeElems] at hs
            omega
          have h1 := ihV x hx
          have h2 := ihE xs hxs
          simp [sizeJ, sizeElems, render] at h1 h2 ⊢
          omega
      | obj ms =>
        cases ms with
        | nil => simp [sizeJ, sizeMembers, render]
        | cons m ms =>
          obtain ⟨k, v⟩ := m
          have hv : sizeJ v ≤ N := by
            simp [sizeJ, sizeMembers] at hs
            omega
          have hms : sizeMembers ms ≤ N := by
            simp [sizeJ, sizeMembers] at hs
            omega
          have h1 := ihV v hv
          have h2 := ihM ms hms
          simp [sizeJ, sizeMembers, render, renderMember] at h1 h2 ⊢
          omega
    · intro xs hs
      cases xs with
      | nil => simp [sizeElems, renderMoreElems]
      | cons x xs =>
        have hx : sizeJ x ≤ N := by
          simp [sizeElems] at hs
          omega
        have hxs : sizeElems xs ≤ N := by
          simp [sizeElems] at hs
          omega
        have h1 := ihV x hx
        have h2 := ihE xs hxs
        simp [sizeElems, renderMoreElems] at h1 h2 ⊢
        omega
    · intro ms hs
      cases ms with
      | nil => simp [sizeMembers, renderMoreMembers]
      | cons m ms =>
        obtain ⟨k, v⟩ := m
        have hv : sizeJ v ≤ N := by
          simp [sizeMembers] at hs
          omega
        have hms : sizeMembers ms ≤ N := by
          simp [sizeMembers] at hs
          omega
        have h1 := ihV v hv
        have h2 := ihM ms hms
        simp [sizeMembers, renderMoreMembers, renderMember] at h1 h2 ⊢
        omega

/-- The codec round-trip at the character level: parsing a rendered value
recovers the value exactly. -/
theorem jsonDecode_render (v : Json) : jsonDecode (render v) = some v := by
  have h1 : sizeJ v ≤ (render v).length := (size_render_all (sizeJ v)).1 v le_rfl
  have h2 := (parse_render_all ((render v).length + 1)).1 v [] (by omega) notDigitStart_nil
  rw [List.append_nil] at h2
  rw [jsonDecode, h2]

/-! ## Manifest schema (modelled from the spec, section 3)

Modelled from the spec: the crate's `schema` module is not among the provided
sources.  Per the spec, the manifest maps implementation identifiers to an
implementation or requirement carrying an interface name, and an interface
description lists command names and variable names. -/

/-- An entry of `Manifest.provides`: an implementation bound to an interface. -/
structure Implementation where
  interface : String

/-- An entry of `Manifest.requires`: a requirement bound to an interface. -/
structure Requirement where
  interface : String

/-- The module manifest returned by the external handle at startup.
The mappings are modelled as association lists in iteration order. -/
structure Manifest where
  provides : List (String × Implementation)
  requires : List (String × Requirement)

/-- An interface description: the declared command and variable names. -/
structure Interface where
  cmds : List String
  vars : List String

/-! ## FFI data types (from `mod ffi` in the source) -/

/-- The dispatch key: implementation identifier and command/variable name. -/
structure CommandMeta where
  implementation_id : String
  name : String
  deriving DecidableEq

/-- An opaque serialized payload crossing the FFI boundary. -/
structure JsonBlob where
  data : List Char
  deriving DecidableEq

/-- Constructor of a payload from raw bytes (`JsonBlob::from_vec`). -/
def JsonBlob.from_vec (data : List Char) : JsonBlob := ⟨data⟩

/-- Embeds `JsonBlob::deserialize::<serde_json::Value>`: the source calls
`serde_json::from_slice(..).unwrap()`, so a malformed payload panics; the
panic is modelled as `none`. -/
def JsonBlob.deserialize (b : JsonBlob) : Option Json := jsonDecode b.data

/-- Embeds `JsonBlob::deserialize::<HashMap<String, serde_json::Value>>`
(the argument mapping of a command call): the payload must decode to a JSON
object; any failure is an unhandled panic, modelled as `none`. -/
def JsonBlob.deserializeArgs (b : JsonBlob) : Option (List (String × Json)) :=
  match jsonDecode b.data with
  | some (.obj members) => some members
  | _ => none

/-- One call the bridge issues against the external handle during binding,
together with the internal store of the subscriber reference.
`fetch_manifest` records the call to the handle's `initialize` method. -/
inductive Event where
  | store_subscriber
  | fetch_manifest
  | get_interface (interface_name : String)
  | provide_command (implementation_id : String) (name : String)
  | subscribe_variable (implementation_id : String) (name : String)
  | signal_ready
  deriving DecidableEq

/-- The external handle (`everestrs_sys` C++ `Module`).  Modelled from the
spec, sections 4.3 and 6: an opaque capability answering the manifest query,
the per-interface description query, and synchronous command calls.  The
query results are modelled as already-decoded values (a malformed manifest
or interface description is fatal at startup, spec section 4.2, and outside
the dispatch behavior under verification). -/
structure Module where
  manifest : Manifest
  interfaces : String → Interface
  call_response : String → String → JsonBlob → JsonBlob

/-! ## Error type and Subscriber trait (from the source) -/

/-- The crate's `Error` enum. -/
inductive Error where
  | MissingArgument (arg : String)
  | InvalidArgument (arg : String)
  | Internal
  deriving DecidableEq

/-- The `Subscriber` trait: string-keyed command and variable handlers plus
the ready notification (a no-op by default, as in the source). -/
structure Subscriber where
  handle_command : String → String → List (String × Json) → Except Error Json
  handle_variable : String → String → Json → Except Error Unit
  on_ready : Unit → Unit := fun _ => ()

/-! ## The Runtime

`sub_impl` is `Option<Weak<dyn Subscriber>>` in the source.  A weak
reference is modelled by its upgrade result: `some s` is a weak reference
whose referent is alive, `none` one whose referent was dropped.  A `&self`
method cannot change the `Runtime`, so the dispatch entry points return the
receiver unchanged as the second component; a panic (`unwrap` of
`Err`/`None`) is modelled as result `none`. -/

/-- The bridge state: the owned external handle and the optional weak
subscriber reference. -/
structure Runtime where
  cpp_module : Module
  sub_impl : Option (Option Subscriber)

/-- Embeds `Runtime::get_sub`: `self.sub_impl.as_ref().unwrap().upgrade().unwrap()`.
Both unwraps panic, modelled as `none`: either no subscriber was ever set,
or the weak reference can no longer be upgraded. -/
def Runtime.get_sub (rt : Runtime) : Option Subscriber :=
  rt.sub_impl.bind id

/-- Embeds `Runtime::on_ready`: delegates to the subscriber's `on_ready`. -/
def Runtime.on_ready (rt : Runtime) : Option Unit × Runtime :=
  match rt.get_sub with
  | none => (none, rt)
  | some sub => (some (sub.on_ready ()), rt)

/-- Embeds `Runtime::handle_command`: deserialize the argument mapping,
invoke the subscriber's command handler, `unwrap` the handler result (an
`Err` panics!), serialize the returned value as the response payload. -/
def Runtime.handle_command (rt : Runtime) (meta : CommandMeta) (json : JsonBlob) :
    Option JsonBlob × Runtime :=
  match rt.get_sub with
  | none => (none, rt)
  | some sub =>
    match json.deserializeArgs with
    | none => (none, rt)
    | some parameters =>
      match sub.handle_command meta.implementation_id meta.name parameters with
      | .error _ => (none, rt)
      | .ok blob => (some (JsonBlob.from_vec (render blob)), rt)

/-- Embeds `Runtime::handle_variable`: deserialize the value, invoke the
subscriber's variable handler, `unwrap` its result (an `Err` panics!). -/
def Runtime.handle_variable (rt : Runtime) (meta : CommandMeta) (json : JsonBlob) :
    Option Unit × Runtime :=
  match rt.get_sub with
  | none => (none, rt)
  | some sub =>
    match json.deserialize with
    | none => (none, rt)
    | some value =>
      match sub.handle_variable meta.implementation_id meta.name value with
      | .error _ => (none, rt)
      | .ok _ => (some (), rt)

/-- Embeds `Runtime::publish_variable`: serialize the message (total) and
forward it to the external handle's `publish_variable`; the returned triple
records the arguments of that forwarded call. -/
def Runtime.publish_variable (_rt : Runtime) (impl_id : String) (var_name : String)
    (message : Json) : String × String × JsonBlob :=
  (impl_id, var_name, JsonBlob.from_vec (render message))

/-- Embeds `Runtime::call_command`: serialize the arguments (total), call
the external handle's `call_command`, deserialize the returned payload with
`unwrap` — a malformed response panics, modelled as `none`. -/
def Runtime.call_command (rt : Runtime) (impl_id : String) (name : String)
    (args : Json) : Option Json :=
  let blob := JsonBlob.from_vec (render args)
  let return_value := rt.cpp_module.call_response impl_id name blob
  jsonDecode return_value.data

/-- The calls issued for one `provides` entry: fetch its interface, then
register every command of that interface under the entry's identifier. -/
def provide_command_events (interfaces : String → Interface)
    (entry : String × Implementation) : List Event :=
  Event.get_interface entry.2.interface ::
    ((interfaces entry.2.interface).cmds.map fun name =>
      Event.provide_command entry.1 name)

/-- The calls issued for one `requires` entry: fetch its interface, then
subscribe to every variable of that interface under the entry's identifier. -/
def subscribe_variable_events (interfaces : String → Interface)
    (entry : String × Requirement) : List Event :=
  Event.get_interface entry.2.interface ::
    ((interfaces entry.2.interface).vars.map fun name =>
      Event.subscribe_variable entry.1 name)

/-- Embeds `Runtime::set_subscriber`.  If a subscriber is already set the
call returns immediately (no state change, no external calls, no error).
Otherwise it stores the subscriber reference, then fetches the manifest,
walks `provides` registering command callbacks, walks `requires`
subscribing to variables, and finally signals readiness; the second
component records that sequence of steps in order. -/
def Runtime.set_subscriber (rt : Runtime) (sub_impl : Option Subscriber) :
    Runtime × List Event :=
  if rt.sub_impl.isSome then (rt, [])
  else
    ({ rt with sub_impl := some sub_impl },
      .store_subscriber :: .fetch_manifest ::
        ((rt.cpp_module.manifest.provides.flatMap
            (provide_command_events rt.cpp_module.interfaces))
          ++ (rt.cpp_module.manifest.requires.flatMap
            (subscribe_variable_events rt.cpp_module.interfaces))
          ++ [.signal_ready]))

/-- The registration algorithm exactly as the spec states it (section 4.4,
steps 1 to 4): fetch the manifest; per `provides` entry fetch the interface
and register a command callback for every command name; per `requires`
entry fetch the interface and register a variable callback for every
variable name; finally signal readiness.  Written from the spec's words,
for comparison with the trace the embedded code produces. -/
def spec_registration_sequence (m : Module) : List Event :=
  .fetch_manifest ::
    ((m.manifest.provides.flatMap fun e =>
        .get_interface e.2.interface ::
          ((m.interfaces e.2.interface).cmds.map fun name =>
            .provide_command e.1 name))
      ++ (m.manifest.requires.flatMap fun e =>
        .get_interface e.2.interface ::
          ((m.interfaces e.2.interface).vars.map fun name =>
            .subscribe_variable e.1 name))
      ++ [.signal_ready])

/-! ## Concrete fixtures used by the claim theorems below -/

/-- An interface with no commands and no variables. -/
def emptyInterface : Interface := ⟨[], []⟩

/-- A module whose manifest provides and requires nothing. -/
def module_basic : Module :=
  ⟨⟨[], []⟩, fun _ => emptyInterface, fun _ _ _ => ⟨[]⟩⟩

/-- A module whose external `call_command` answers with malformed bytes. -/
def module_bad_response : Module :=
  ⟨⟨[], []⟩, fun _ => emptyInterface, fun _ _ _ => ⟨['x']⟩⟩

/-- A subscriber whose handlers always succeed. -/
def sub_ok : Subscriber :=
  ⟨fun _ _ _ => .ok .null, fun _ _ _ => .ok (), fun _ => ()⟩

/-- A subscriber whose handlers always report a domain failure. -/
def sub_err : Subscriber :=
  ⟨fun _ _ _ => .error (.MissingArgument "x"), fun _ _ _ => .error (.MissingArgument "x"),
    fun _ => ()⟩

/-! ## Claim theorems -/

/-- Claim C1 (code bug): when the bound subscriber's `handle_command`
returns an `Err`, the Runtime's `handle_command` does not return a failure
indicator to the external dispatch caller — the source `unwrap`s the
handler result, so the dispatch panics (modelled as result `none`) instead
of producing any response value.  Evaluated at a concrete failing input:
a bound subscriber that reports `MissingArgument`, dispatched with an
empty-object payload. -/
theorem handle_command_err_panics :
    ((⟨module_basic, some (some sub_err)⟩ : Runtime).handle_command ⟨"imp", "cmd"⟩
      (JsonBlob.from_vec ['{', '}'])).1 = none := rfl

/-- Claim C4: decoding the payload produced by encoding any supported value
yields the value again.  The payload published by `publish_variable` (the
encoding path, `serde_json::to_vec`) decodes (`serde_json::from_slice`)
back to the original value, for every JSON value of the modelled fragment. -/
theorem publish_decode_round_trip (rt : Runtime) (impl_id var_name : String) (v : Json) :
    (rt.publish_variable impl_id var_name v).2.2.deserialize = some v := by
  simp [Runtime.publish_variable, JsonBlob.deserialize, JsonBlob.from_vec, jsonDecode_render]

/-- Claim C5 (code bug): a payload that is not a valid encoding fails to
decode, but the failure is not surfaced to the caller as a typed result:
`JsonBlob::deserialize` and `call_command` `unwrap` the `serde_json` error,
so the operation panics (modelled as `none`).  Evaluated at concrete
malformed inputs on the dispatch path and on the client call path. -/
theorem decode_failure_panics :
    (JsonBlob.from_vec ['n', 'o', 'p', 'e']).deserialize = none
    ∧ ((⟨module_basic, some (some sub_ok)⟩ : Runtime).handle_command ⟨"imp", "cmd"⟩
        (JsonBlob.from_vec ['n', 'o', 'p', 'e'])).1 = none
    ∧ (⟨module_bad_response, some (some sub_ok)⟩ : Runtime).call_command "imp" "cmd" (.obj [])
      = none :=
  ⟨rfl, rfl, rfl⟩

/-- Claim C8 (code bug): when the bound subscriber's `handle_variable`
returns an `Err`, the Runtime's `handle_variable` does not merely terminate
that delivery — the source `unwrap`s the result, so the dispatch thread
panics (modelled as `none`).  Evaluated at a concrete failing input. -/
theorem handle_variable_err_panics :
    ((⟨module_basic, some (some sub_err)⟩ : Runtime).handle_variable ⟨"imp", "var"⟩
      (JsonBlob.from_vec ['1'])).1 = none := rfl

/-- Claim C9: every dispatch entry point invoked on a Runtime whose
subscriber reference is unset, or whose weak reference can no longer be
upgraded (`get_sub` panics either way), aborts with no result and leaves
the Runtime state (`cpp_module`, `sub_impl`) unchanged. -/
theorem dispatch_without_subscriber_aborts (rt : Runtime) (meta : CommandMeta)
    (json : JsonBlob) (h : rt.get_sub = none) :
    rt.handle_command meta json = (none, rt)
    ∧ rt.handle_variable meta json = (none, rt)
    ∧ rt.on_ready = (none, rt) := by
  refine ⟨?_, ?_, ?_⟩ <;> simp [Runtime.handle_command, Runtime.handle_variable,
    Runtime.on_ready, h]

/-- Witness for claim C9 at a concrete Runtime holding a dead weak
reference (`sub_impl = some none`). -/
theorem dispatch_without_subscriber_aborts_witness :
    (⟨module_basic, some none⟩ : Runtime).get_sub = none
    ∧ ((⟨module_basic, some none⟩ : Runtime).handle_command ⟨"a", "b"⟩
        (JsonBlob.from_vec ['1']) = (none, ⟨module_basic, some none⟩)
      ∧ (⟨module_basic, some none⟩ : Runtime).handle_variable ⟨"a", "b"⟩
        (JsonBlob.from_vec ['1']) = (none, ⟨module_basic, some none⟩)
      ∧ (⟨module_basic, some none⟩ : Runtime).on_ready = (none, ⟨module_basic, some none⟩)) :=
  ⟨rfl, dispatch_without_subscriber_aborts ⟨module_basic, some none⟩ ⟨"a", "b"⟩
    (JsonBlob.from_vec ['1']) rfl⟩

/-- Claim C2: binding is first-wins.  Starting from a Runtime with no
subscriber set (as produced by `Runtime::new`), after `set_subscriber s1`
followed by `set_subscriber s2` the stored reference is still `s1` — so all
subsequent dispatch upgrades `s1` — and the second call changes no state,
issues no call against the external handle, and reports no error (the
function returns normally with an empty trace). -/
theorem set_subscriber_first_wins (rt : Runtime) (s1 s2 : Option Subscriber)
    (h : rt.sub_impl = none) :
    ((rt.set_subscriber s1).1.set_subscriber s2).1 = (rt.set_subscriber s1).1
    ∧ ((rt.set_subscriber s1).1.set_subscriber s2).2 = []
    ∧ ((rt.set_subscriber s1).1.set_subscriber s2).1.sub_impl = some s1
    ∧ ((rt.set_subscriber s1).1.set_subscriber s2).1.get_sub = s1 := by
  have h1 : (rt.set_subscriber s1).1 = { rt with sub_impl := some s1 } := by
    simp [Runtime.set_subscriber, h]
  have h2 : ({ rt with sub_impl := some s1 } : Runtime).set_subscriber s2
      = ({ rt with sub_impl := some s1 }, []) := by
    simp [Runtime.set_subscriber]
  rw [h1, h2]
  exact ⟨rfl, rfl, rfl, rfl⟩

/-- Witness for claim C2 at a concrete unbound Runtime and two distinct
concrete subscribers. -/
theorem set_subscriber_first_wins_witness :
    (⟨module_basic, none⟩ : Runtime).sub_impl = none
    ∧ (((⟨module_basic, none⟩ : Runtime).set_subscriber (some sub_ok)).1.set_subscriber
        (some sub_err)).2 = []
    ∧ (((⟨module_basic, none⟩ : Runtime).set_subscriber (some sub_ok)).1.set_subscriber
        (some sub_err)).1.sub_impl = some (some sub_ok) :=
  ⟨rfl,
    (set_subscriber_first_wins ⟨module_basic, none⟩ (some sub_ok) (some sub_err) rfl).2.1,
    (set_subscriber_first_wins ⟨module_basic, none⟩ (some sub_ok) (some sub_err) rfl).2.2.1⟩

/-- Registration events: the command and variable callback registrations
issued against the external handle. -/
def Event.isRegistration : Event → Bool
  | .provide_command _ _ => true
  | .subscribe_variable _ _ => true
  | _ => false

/-- Claim C10: during the binding transition the subscriber reference is
stored into `sub_impl` before any `provide_command` or `subscribe_variable`
call is issued to the external handle: the store is the first step of the
trace, strictly before every registration event, and the bound state holds
the subscriber. -/
theorem store_subscriber_before_registrations (rt : Runtime) (sub : Option Subscriber)
    (h : rt.sub_impl = none) :
    (rt.set_subscriber sub).1.sub_impl = some sub
    ∧ ∀ (i : Nat) (e : Event), ((rt.set_subscriber sub).2)[i]? = some e →
        e.isRegistration = true →
        ∃ j, j < i ∧ ((rt.set_subscriber sub).2)[j]? = some Event.store_subscriber := by
  have key : ∀ (tl : List Event) (i : Nat) (e : Event),
      (Event.store_subscriber :: tl)[i]? = some e → e.isRegistration = true →
      ∃ j, j < i ∧ (Event.store_subscriber :: tl)[j]? = some Event.store_subscriber := by
    intro tl i e hi hreg
    match i with
    | 0 =>
      rw [List.getElem?_cons_zero] at hi
      cases hi
      simp [Event.isRegistration] at hreg
    | k + 1 =>
      exact ⟨0, Nat.succ_pos k, by simp⟩
  have htl : (rt.set_subscriber sub).2
      = Event.store_subscriber :: (Event.fetch_manifest ::
          ((rt.cpp_module.manifest.provides.flatMap
              (provide_command_events rt.cpp_module.interfaces))
            ++ ((rt.cpp_module.manifest.requires.flatMap
              (subscribe_variable_events rt.cpp_module.interfaces))
            ++ [Event.signal_ready]))) := by
    simp [Runtime.set_subscriber, h]
  constructor
  · simp [Runtime.set_subscriber, h]
  · rw [htl]
    exact key _

/-- Witness for claim C10 at a concrete unbound Runtime. -/
theorem store_subscriber_before_registrations_witness :
    (⟨module_basic, none⟩ : Runtime).sub_impl = none
    ∧ ((⟨module_basic, none⟩ : Runtime).set_subscriber (some sub_ok)).1.sub_impl
      = some (some sub_ok) :=
  ⟨rfl, (store_subscriber_before_registrations ⟨module_basic, none⟩ (some sub_ok) rfl).1⟩

/-- No `provides` registration block contains the readiness signal. -/
theorem signal_ready_not_mem_provides (ifs : String → Interface)
    (l : List (String × Implementation)) :
    Event.signal_ready ∉ l.flatMap (provide_command_events ifs) := by
  intro hmem
  rw [List.mem_flatMap] at hmem
  obtain ⟨e, _, he⟩ := hmem
  simp [provide_command_events] at he

/-- No `requires` registration block contains the readiness signal. -/
theorem signal_ready_not_mem_requires (ifs : String → Interface)
    (l : List (String × Requirement)) :
    Event.signal_ready ∉ l.flatMap (subscribe_variable_events ifs) := by
  intro hmem
  rw [List.mem_flatMap] at hmem
  obtain ⟨e, _, he⟩ := hmem
  simp [subscribe_variable_events] at he

/-- Claim C3: the first `set_subscriber` call performs exactly the sequence
the spec prescribes against the external handle — fetch the manifest, per
`provides` entry fetch the interface and register a command callback per
declared command, per `requires` entry fetch the interface and register a
variable callback per declared variable — and `signal_ready` is the final
step, after all registrations: the trace ends in `signal_ready` and
contains it nowhere earlier. -/
theorem set_subscriber_registration_sequence (rt : Runtime) (sub : Option Subscriber)
    (h : rt.sub_impl = none) :
    (rt.set_subscriber sub).2
      = Event.store_subscriber :: spec_registration_sequence rt.cpp_module
    ∧ ∃ pre, (rt.set_subscriber sub).2 = pre ++ [Event.signal_ready]
        ∧ Event.signal_ready ∉ pre := by
  have htl : (rt.set_subscriber sub).2
      = Event.store_subscriber :: (Event.fetch_manifest ::
          ((rt.cpp_module.manifest.provides.flatMap
              (provide_command_events rt.cpp_module.interfaces))
            ++ ((rt.cpp_module.manifest.requires.flatMap
              (subscribe_variable_events rt.cpp_module.interfaces))
            ++ [Event.signal_ready]))) := by
    simp [Runtime.set_subscriber, h]
  have hp : provide_command_events rt.cpp_module.interfaces = fun e =>
      Event.get_interface e.2.interface ::
        List.map (fun name => Event.provide_command e.1 name)
          (rt.cpp_module.interfaces e.2.interface).cmds := by
    funext e
    simp [provide_command_events]
  have hq : subscribe_variable_events rt.cpp_module.interfaces = fun e =>
      Event.get_interface e.2.interface ::
        List.map (fun name => Event.subscribe_variable e.1 name)
          (rt.cpp_module.interfaces e.2.interface).vars := by
    funext e
    simp [subscribe_variable_events]
  constructor
  · rw [htl]
    simp [spec_registration_sequence, hp, hq]
  · refine ⟨Event.store_subscriber :: Event.fetch_manifest ::
      ((rt.cpp_module.manifest.provides.flatMap
          (provide_command_events rt.cpp_module.interfaces))
        ++ (rt.cpp_module.manifest.requires.flatMap
          (subscribe_variable_events rt.cpp_module.interfaces))), ?_, ?_⟩
    · rw [htl]
      simp
    · intro hmem
      rcases List.mem_cons.mp hmem with hc | hmem
      · exact Event.noConfusion hc
      rcases List.mem_cons.mp hmem with hc | hmem
      · exact Event.noConfusion hc
      rcases List.mem_append.mp hmem with hm | hm
      · exact signal_ready_not_mem_provides _ _ hm
      · exact signal_ready_not_mem_requires _ _ hm

/-- Count of interface fetches contributed by the `provides` walk: one per
entry whose interface is the one in question. -/
theorem count_get_interface_provides (ifs : String → Interface)
    (l : List (String × Implementation)) (i : String) :
    (l.flatMap (provide_command_events ifs)).count (Event.get_interface i)
      = l.countP fun e => e.2.interface == i := by
  induction l with
  | nil => rfl
  | cons e l ih =>
    rw [List.flatMap_cons, List.count_append, ih, List.countP_cons, provide_command_events,
      List.count_cons]
    have hz : ((ifs e.2.interface).cmds.map fun name => Event.provide_command e.1 name).count
        (Event.get_interface i) = 0 := by
      rw [List.count_eq_zero]
      simp
    rw [hz]
    by_cases hie : e.2.interface = i
    · simp [hie]
      omega
    · simp [hie]

/-- Count of interface fetches contributed by the `requires` walk: one per
entry whose interface is the one in question. -/
theorem count_get_interface_requires (ifs : String → Interface)
    (l : List (String × Requirement)) (i : String) :
    (l.flatMap (subscribe_variable_events ifs)).count (Event.get_interface i)
      = l.countP fun e => e.2.interface == i := by
  induction l with
  | nil => rfl
  | cons e l ih =>
    rw [List.flatMap_cons, List.count_append, ih, List.countP_cons, subscribe_variable_events,
      List.count_cons]
    have hz : ((ifs e.2.interface).vars.map fun name => Event.subscribe_variable e.1 name).count
        (Event.get_interface i) = 0 := by
      rw [List.count_eq_zero]
      simp
    rw [hz]
    by_cases hie : e.2.interface = i
    · simp [hie]
      omega
    · simp [hie]

/-- Claim C6, amended: during startup registration `get_interface` is
invoked once per manifest entry — once for every `provides` entry and once
for every `requires` entry, with that entry's interface name — so for a
given interface name the number of fetches is the number of entries bound
to it, which collapses to one per distinct interface only when no two
entries share an interface name. -/
theorem get_interface_count_per_entry (rt : Runtime) (sub : Option Subscriber) (i : String)
    (h : rt.sub_impl = none) :
    ((rt.set_subscriber sub).2).count (Event.get_interface i)
      = (rt.cpp_module.manifest.provides.countP fun e => e.2.interface == i)
        + (rt.cpp_module.manifest.requires.countP fun e => e.2.interface == i) := by
  have htl : (rt.set_subscriber sub).2
      = Event.store_subscriber :: (Event.fetch_manifest ::
          ((rt.cpp_module.manifest.provides.flatMap
              (provide_command_events rt.cpp_module.interfaces))
            ++ ((rt.cpp_module.manifest.requires.flatMap
              (subscribe_variable_events rt.cpp_module.interfaces))
            ++ [Event.signal_ready]))) := by
    simp [Runtime.set_subscriber, h]
  rw [htl, List.count_cons, List.count_cons, List.count_append, List.count_append,
    count_get_interface_provides, count_get_interface_requires]
  simp

/-- A module whose manifest binds two different provided implementations to
the same interface name. -/
def module_two_provides : Module :=
  ⟨⟨[("a", ⟨"power"⟩), ("b", ⟨"power"⟩)], []⟩, fun _ => emptyInterface, fun _ _ _ => ⟨[]⟩⟩

/-- Counterexample to claim C6 as stated: with two `provides` entries bound
to the same interface name `"power"` (one distinct interface), binding
issues `get_interface "power"` twice, not exactly once. -/
theorem get_interface_once_per_distinct_counterexample :
    ((⟨module_two_provides, none⟩ : Runtime).set_subscriber (some sub_ok)).2.count
        (Event.get_interface "power") = 2
    ∧ ((⟨module_two_provides, none⟩ : Runtime).set_subscriber (some sub_ok)).2.count
        (Event.get_interface "power") ≠ 1 := by
  constructor <;> decide

/-- Witness for the amended claim C6 at the concrete module with two
`provides` entries sharing one interface name. -/
theorem get_interface_count_per_entry_witness :
    (⟨module_two_provides, none⟩ : Runtime).sub_impl = none
    ∧ ((⟨module_two_provides, none⟩ : Runtime).set_subscriber (some sub_ok)).2.count
        (Event.get_interface "power")
      = (module_two_provides.manifest.provides.countP fun e => e.2.interface == "power")
        + (module_two_provides.manifest.requires.countP fun e => e.2.interface == "power") :=
  ⟨rfl, get_interface_count_per_entry ⟨module_two_provides, none⟩ (some sub_ok) "power" rfl⟩

/-- The interface of the end-to-end scenario: one command, no variables. -/
def interface_power : Interface := ⟨["start"], []⟩

/-- The module of the end-to-end scenario: provides `"charger"` bound to
interface `"power"`, requires nothing. -/
def module_charger : Module :=
  ⟨⟨[("charger", ⟨"power"⟩)], []⟩,
    fun i => if i = "power" then interface_power else emptyInterface,
    fun _ _ _ => ⟨[]⟩⟩

/-- The handler of the end-to-end scenario: returns `42` exactly when
invoked as `("charger", "start")` with an empty argument mapping. -/
def sub_charger : Subscriber :=
  ⟨fun impl name ps =>
      if impl = "charger" && name = "start" && ps.isEmpty then .ok (.num 42)
      else .error .Internal,
    fun _ _ _ => .ok (), fun _ => ()⟩

/-- Witness for claim C3 at the concrete charger module. -/
theorem set_subscriber_registration_sequence_witness :
    (⟨module_charger, none⟩ : Runtime).sub_impl = none
    ∧ ((⟨module_charger, none⟩ : Runtime).set_subscriber (some sub_ok)).2
      = Event.store_subscriber :: spec_registration_sequence module_charger :=
  ⟨rfl, (set_subscriber_registration_sequence ⟨module_charger, none⟩ (some sub_ok) rfl).1⟩

/-- Claim C7: after binding the charger manifest, a command callback is
registered under `("charger", "start")`, and dispatching that key with the
encoding of an empty argument object to the bound handler — which answers
`42` only when given the empty decoded argument map — produces a response
payload that decodes to `42`. -/
theorem end_to_end_charger_start :
    Event.provide_command "charger" "start"
      ∈ ((⟨module_charger, none⟩ : Runtime).set_subscriber (some sub_charger)).2
    ∧ (((⟨module_charger, none⟩ : Runtime).set_subscriber (some sub_charger)).1.handle_command
        ⟨"charger", "start"⟩ (JsonBlob.from_vec ['{', '}'])).1
      = some (JsonBlob.from_vec ['4', '2'])
    ∧ (JsonBlob.from_vec ['4', '2']).deserialize = some (.num 42) := by
  refine ⟨by decide, ?_, rfl⟩
  have hr : render (.num 42) = ['4', '2'] := by
    simp [render, renderInt, renderNat, renderNatAux, digitChar]
  rw [show (((⟨module_charger, none⟩ : Runtime).set_subscriber (some sub_charger)).1.handle_command
        ⟨"charger", "start"⟩ (JsonBlob.from_vec ['{', '}'])).1
      = some (JsonBlob.from_vec (render (.num 42))) from rfl, hr]

end Everest
